import Mathlib

/-
  Verification of the BricktronicsMotor control loop (src/BricktronicsMotor.h).

  Shallow embedding notes:
  * Machine integers are modelled as plain integers with explicit wrapping at
    the points where the C code converts between widths: toUInt16 models the
    conversion to uint16_t, toInt16 the (avr-gcc, wrap-around) conversion to
    int16_t, toInt8 the conversion to int8_t.  C integer division and
    remainder truncate toward zero, which is Int.tdiv / Int.tmod.
  * The double-typed PID fields are modelled as rationals; the only double
    operations the embedded code performs are subtraction, absolute value,
    comparison against small integer constants and division by 8, all of
    which are exact in double for the ranges involved.
  * The quadrature decoder is modelled by the state field encoderPos, which
    Encoder.read returns and Encoder.write overwrites.  Physical motion of
    the shaft between calls is outside the model.
  * The PID engine (PID_v1) and the wall clock (millis) are external
    collaborators.  They are modelled by an environment: computeAt n is the
    output stored by the n-th call to PID.Compute, millisAt n is the value
    returned by the n-th call to millis().  The tunings currently handed to
    the engine by PID.SetTunings are recorded in the engineKp/Ki/Kd fields.
  * Pin electrical state is recorded in enVal, dirVal, pwmVal; digitalWrite
    LOW/HIGH store 0/1 and analogWrite stores the duty value.
  * The unbounded polling loops are given explicit fuel and return none when
    the fuel runs out, so nontermination of the C loop maps to none.
-/

namespace BricktronicsMotor

/-- Conversion of an integer to uint16_t, as C performs it. -/
def toUInt16 (z : ℤ) : ℤ := z % 65536

/-- Conversion of an integer to int16_t (wrap-around, as on avr-gcc). -/
def toInt16 (z : ℤ) : ℤ := (z + 32768) % 65536 - 32768

/-- Conversion of an integer to int8_t (wrap-around, as on avr-gcc). -/
def toInt8 (z : ℤ) : ℤ := (z + 128) % 256 - 128

/-- Truncation of a rational toward zero, as C double-to-integer conversion. -/
def truncQ (q : ℚ) : ℤ := Int.tdiv q.num q.den

/-- External collaborators: the wall clock and the PID computation engine.
millisAt n is the value returned by the n-th call to millis(), computeAt n is
the output value stored into the output variable by the n-th PID.Compute. -/
structure Env where
  millisAt : ℕ → ℕ
  computeAt : ℕ → ℚ

/-- The observable state of a BricktronicsMotor object together with its
collaborators: the encoder count, the last raw speed (stored in a uint16_t
field), the PID mode and PID variables, the stored base gains, the gains most
recently handed to the PID engine, the angle multiplier (int8_t field), the
epsilon tolerance (uint8_t field), the drive pin levels, and call counters
for the two external collaborators. -/
structure MotorState where
  encoderPos : ℤ
  rawSpeed : ℤ
  pidMode : ℕ
  pidSetpoint : ℚ
  pidInput : ℚ
  pidOutput : ℚ
  pidKp : ℚ
  pidKi : ℚ
  pidKd : ℚ
  engineKp : ℚ
  engineKi : ℚ
  engineKd : ℚ
  angleMultiplier : ℤ
  epsilon : ℤ
  enVal : ℤ
  dirVal : ℤ
  pwmVal : ℤ
  nMillis : ℕ
  nCompute : ℕ
deriving DecidableEq

/-- The default gain constant 2.64, as a reduced fraction 66 / 25. -/
def defaultKp : ℚ := ⟨66, 25, by decide, by decide⟩

/-- The default gain constant 14.432, as a reduced fraction 1804 / 125. -/
def defaultKi : ℚ := ⟨1804, 125, by decide, by decide⟩

/-- The default gain constant 0.1207317073, as a reduced fraction. -/
def defaultKd : ℚ := ⟨1207317073, 10000000000, by decide, by decide⟩

/-- The state right after the constructor ran: rawSpeed 0, PID mode disabled,
default Ziegler-Nichols gains, angle multiplier 1, epsilon 5.  Pin levels are
taken to be low. -/
def initialState : MotorState where
  encoderPos := 0
  rawSpeed := 0
  pidMode := 0
  pidSetpoint := 0
  pidInput := 0
  pidOutput := 0
  pidKp := defaultKp
  pidKi := defaultKi
  pidKd := defaultKd
  engineKp := defaultKp
  engineKi := defaultKi
  engineKd := defaultKd
  angleMultiplier := 1
  epsilon := 5
  enVal := 0
  dirVal := 0
  pwmVal := 0
  nMillis := 0
  nCompute := 0

/-- Embeds stop(): digitalWrite LOW on the enable, direction and pwm pins. -/
def stop (s : MotorState) : MotorState :=
  { s with enVal := 0, dirVal := 0, pwmVal := 0 }

/-- All three drive pins are inactive (low). -/
def pinsStopped (s : MotorState) : Prop :=
  s.enVal = 0 ∧ s.dirVal = 0 ∧ s.pwmVal = 0

instance (s : MotorState) : Decidable (pinsStopped s) := by
  unfold pinsStopped; infer_instance

/-- Embeds getPosition(): reads the encoder count. -/
def getPosition (s : MotorState) : ℤ := s.encoderPos

/-- Embeds setPosition(pos): overwrites the encoder count. -/
def setPosition (pos : ℤ) (s : MotorState) : MotorState :=
  { s with encoderPos := pos }

/-- Embeds settledAtPosition(position): close to the target and the PID
output magnitude below the settled threshold 30. -/
def settledAtPosition (position : ℤ) (s : MotorState) : Bool :=
  decide (|getPosition s - position| < s.epsilon) && decide (|s.pidOutput| < (30 : ℚ))

/-- Embeds rawSetSpeed(s): stores the speed in the uint16_t field, then either
stops (speed 0), or drives reverse (dir high, pwm duty 255 + s, enable high),
or forward (dir low, pwm duty s, enable high). -/
def rawSetSpeed (sp : ℤ) (s : MotorState) : MotorState :=
  let s0 := { s with rawSpeed := toUInt16 sp }
  if sp = 0 then stop s0
  else if sp < 0 then { s0 with dirVal := 1, pwmVal := 255 + sp, enVal := 1 }
  else { s0 with dirVal := 0, pwmVal := sp, enVal := 1 }

/-- Embeds rawGetSpeed(): returns the uint16_t field converted to int16_t. -/
def rawGetSpeed (s : MotorState) : ℤ := toInt16 s.rawSpeed

/-- Embeds pidUpdateTuningsConservative(divisor): hands the engine the stored
base gains each divided by the divisor, leaving the stored gains alone. -/
def pidUpdateTuningsConservative (divisor : ℚ) (s : MotorState) : MotorState :=
  { s with engineKp := s.pidKp / divisor
           engineKi := s.pidKi / divisor
           engineKd := s.pidKd / divisor }

/-- Embeds pidUpdateTunings(): hands the engine the stored base gains. -/
def pidUpdateTunings (s : MotorState) : MotorState :=
  { s with engineKp := s.pidKp, engineKi := s.pidKi, engineKd := s.pidKd }

/-- Embeds a call to the external PID.Compute: the engine stores a new output
value (supplied by the environment) into the output variable. -/
def pidCompute (env : Env) (s : MotorState) : MotorState :=
  { s with pidOutput := env.computeAt s.nCompute, nCompute := s.nCompute + 1 }

/-- The value returned by a call to millis() in the given state: the next
clock reading, wrapped to uint32_t. -/
def millisValue (env : Env) (s : MotorState) : ℕ :=
  env.millisAt s.nMillis % 4294967296

/-- The state after a call to millis(): the call counter advances. -/
def tickMillis (s : MotorState) : MotorState :=
  { s with nMillis := s.nMillis + 1 }

/-- The first statement of the position-mode branch of update():
the assignment of the encoder reading to the PID input variable. -/
def readInput (s : MotorState) : MotorState :=
  { s with pidInput := (s.encoderPos : ℚ) }

/-- The second statement of the position-mode branch of update():
re-apply conservative gains (divisor 8) when the PID input is within 5 of the
setpoint, full gains otherwise. -/
def adjustTunings (s : MotorState) : MotorState :=
  if |s.pidInput - s.pidSetpoint| < 5 then pidUpdateTuningsConservative 8 s
  else pidUpdateTunings s

/-- The last statement of the position-mode branch of update(): feed the PID
output to rawSetSpeed.  The output is truncated by the double-to-int16_t
argument conversion; the PID output limits of plus or minus 255 keep that
conversion in range. -/
def driveOutput (s : MotorState) : MotorState :=
  rawSetSpeed (toInt16 (truncQ s.pidOutput)) s

/-- Embeds update(): in position mode run the four statements of the case
body in order; in speed mode and in disabled mode update() does nothing. -/
def update (env : Env) (s : MotorState) : MotorState :=
  if s.pidMode = 1 then driveOutput (pidCompute env (adjustTunings (readInput s)))
  else s

/-- Embeds goToPosition(position): switch to position mode, set the setpoint. -/
def goToPosition (position : ℤ) (s : MotorState) : MotorState :=
  { s with pidMode := 1, pidSetpoint := (position : ℚ) }

/-- The while loop of goToPositionWait, with explicit fuel: loop update()
until settled, then stop(). -/
def goToPositionWaitLoop (env : Env) (position : ℤ) : ℕ → MotorState → Option MotorState
  | 0, _ => none
  | fuel + 1, s =>
    if settledAtPosition position s then some (stop s)
    else goToPositionWaitLoop env position fuel (update env s)

/-- Embeds goToPositionWait(position). -/
def goToPositionWait (env : Env) (position : ℤ) (fuel : ℕ) (s : MotorState) :
    Option MotorState :=
  goToPositionWaitLoop env position fuel (goToPosition position s)

/-- The tail of goToPositionWaitTimeout after its loop: stop(), then read
millis() once more and return false when that reading has reached the
deadline and true otherwise, together with the final state. -/
def finishTimeout (env : Env) (deadline : ℕ) (s : MotorState) : Bool × MotorState :=
  (decide (millisValue env (stop s) < deadline), tickMillis (stop s))

/-- The while loop of goToPositionWaitTimeout, with explicit fuel.  The loop
condition first checks settledAtPosition and only reads millis() when not
settled (the C condition short-circuits). -/
def goToPositionWaitTimeoutLoop (env : Env) (position : ℤ) (deadline : ℕ) :
    ℕ → MotorState → Option (Bool × MotorState)
  | 0, _ => none
  | fuel + 1, s =>
    if settledAtPosition position s then some (finishTimeout env deadline s)
    else if millisValue env s < deadline then
      goToPositionWaitTimeoutLoop env position deadline fuel (update env (tickMillis s))
    else some (finishTimeout env deadline (tickMillis s))

/-- Embeds goToPositionWaitTimeout(position, timeoutMS): the deadline is the
uint32_t sum of the timeout and the first millis() reading, taken after
goToPosition switched the mode. -/
def goToPositionWaitTimeout (env : Env) (position : ℤ) (timeoutMS : ℕ) (fuel : ℕ)
    (s : MotorState) : Option (Bool × MotorState) :=
  goToPositionWaitTimeoutLoop env position
    ((timeoutMS + millisValue env (goToPosition position s)) % 4294967296) fuel
    (tickMillis (goToPosition position s))

/-- Embeds getAngle(): the truncated quotient position / angleMultiplier,
truncated remainder by 360, returned through the uint16_t return type. -/
def getAngle (s : MotorState) : ℤ :=
  toUInt16 (Int.tmod (Int.tdiv (getPosition s) s.angleMultiplier) 360)

/-- Embeds setAngle(angle): overwrite the encoder position with
(angle % 360) * angleMultiplier, with the C truncated remainder. -/
def setAngle (angle : ℤ) (s : MotorState) : MotorState :=
  setPosition (Int.tmod angle 360 * s.angleMultiplier) s

/-- Embeds setAngleOutputMultiplier(multiplier): the stored int8_t multiplier
is the user multiplier shifted left by one. -/
def setAngleOutputMultiplier (multiplier : ℤ) (s : MotorState) : MotorState :=
  { s with angleMultiplier := toInt8 (multiplier * 2) }

/-- The iterations of the first normalization loop of
_getDestPositionFromAngle, while (delta > 180) delta -= 360, written with a
structural iteration bound so that it evaluates; reduceHi below instantiates
the bound with a provably sufficient value. -/
def reduceHiAux : ℕ → ℤ → ℤ
  | 0, d => d
  | fuel + 1, d => if 180 < d then reduceHiAux fuel (d - 360) else d

/-- The first normalization loop of _getDestPositionFromAngle:
while (delta > 180) delta -= 360. -/
def reduceHi (d : ℤ) : ℤ := reduceHiAux (d + 180).toNat d

/-- The iterations of the second normalization loop of
_getDestPositionFromAngle, while (delta < -180) delta += 360. -/
def reduceLoAux : ℕ → ℤ → ℤ
  | 0, d => d
  | fuel + 1, d => if d < -180 then reduceLoAux fuel (d + 360) else d

/-- The second normalization loop of _getDestPositionFromAngle:
while (delta < -180) delta += 360. -/
def reduceLo (d : ℤ) : ℤ := reduceLoAux (180 - d).toNat d

/-- The local variable delta of _getDestPositionFromAngle after both
normalization loops: the int16_t difference (angle % 360) - getAngle(),
then reduced into the range -180 .. 180. -/
def destDelta (angle : ℤ) (s : MotorState) : ℤ :=
  reduceLo (reduceHi (toInt16 (Int.tmod angle 360 - getAngle s)))

/-- Embeds _getDestPositionFromAngle(angle):
getPosition() + delta * angleMultiplier. -/
def _getDestPositionFromAngle (angle : ℤ) (s : MotorState) : ℤ :=
  getPosition s + destDelta angle s * s.angleMultiplier

/-- Embeds goToAngle(angle). -/
def goToAngle (angle : ℤ) (s : MotorState) : MotorState :=
  goToPosition (_getDestPositionFromAngle angle s) s

/-- The clock of an environment is nondecreasing across successive millis()
calls and fits in uint32_t, so no reading is changed by the uint32_t wrap. -/
def WellBehavedClock (env : Env) : Prop :=
  (∀ i j : ℕ, i ≤ j → env.millisAt i ≤ env.millisAt j) ∧
  (∀ i : ℕ, env.millisAt i < 4294967296)

/-- An environment whose clock always reads 0 and whose PID engine always
produces output 0. -/
def envZero : Env where
  millisAt := fun _ => 0
  computeAt := fun _ => 0

/-- An environment whose clock reads 100 on the first call and 105 afterwards:
five milliseconds elapse during the first loop round. -/
def envLate : Env where
  millisAt := fun n => if n = 0 then 100 else 105
  computeAt := fun _ => 0

/-- A state with a negative encoder position and the internal angle
multiplier 2 (the one setAngleOutputMultiplier(1) stores). -/
def negAngleState : MotorState :=
  { initialState with encoderPos := -180, angleMultiplier := 2 }

/-- The state of the C4 scenario: fresh controller, output multiplier 1,
hence internal multiplier 2, position 0. -/
def angleScenarioState : MotorState := setAngleOutputMultiplier 1 initialState

/-- A state whose encoder sits 100 ticks away from position 0, so that the
settle condition for target 0 fails. -/
def farState : MotorState := { initialState with encoderPos := 100 }

/-- The state in which goToPositionWait(0) on a fresh controller returns:
position mode, everything else unchanged. -/
def waitFinState : MotorState := { initialState with pidMode := 1 }

/- ---------------------------------------------------------------------- -/
/- Arithmetic helper lemmas about the C truncated remainder and the width
   conversions. -/

theorem tmod_neg_left (a b : ℤ) : Int.tmod (-a) b = - Int.tmod a b := by
  rw [Int.tmod_def, Int.tmod_def, Int.neg_tdiv]; ring

theorem tmod360_ub (a : ℤ) : Int.tmod a 360 < 360 :=
  Int.tmod_lt_of_pos a (by norm_num)

theorem tmod360_lb (a : ℤ) : -360 < Int.tmod a 360 := by
  rcases le_or_lt 0 a with h | h
  · have := Int.tmod_nonneg 360 h; omega
  · have h2 : Int.tmod (-a) 360 < 360 := Int.tmod_lt_of_pos _ (by norm_num)
    have h3 := tmod_neg_left a 360
    omega

theorem tmod360_small {a : ℤ} (h1 : -360 < a) (h2 : a < 360) : Int.tmod a 360 = a := by
  rcases le_or_lt 0 a with h | h
  · exact Int.tmod_eq_of_lt h h2
  · have hneg : Int.tmod (-a) 360 = -a := Int.tmod_eq_of_lt (by omega) (by omega)
    have h3 := tmod_neg_left a 360
    omega

theorem tmod360_congr (a : ℤ) : (Int.tmod a 360 - a) % 360 = 0 := by
  have h := Int.tmod_add_tdiv a 360
  omega

/-- When the int16_t narrowing receives the long difference of the truncated
remainder of the angle and the uint16_t current angle, it lands back on the
plain difference of the two remainders (both in the open interval from -360
to 360), because the unsigned wrap and the signed wrap cancel. -/
theorem toInt16_angle_sub {a r : ℤ} (ha1 : -360 < a) (ha2 : a < 360)
    (hr1 : -360 < r) (hr2 : r < 360) : toInt16 (a - toUInt16 r) = a - r := by
  unfold toInt16 toUInt16
  omega

/- ---------------------------------------------------------------------- -/
/- Lemmas about the delta normalization loops. -/

theorem reduceHiAux_le (fuel : ℕ) : ∀ d : ℤ, d ≤ 180 + 360 * fuel →
    reduceHiAux fuel d ≤ 180 := by
  induction fuel with
  | zero => intro d h; simpa [reduceHiAux] using (by omega : d ≤ 180)
  | succ n ih =>
    intro d h
    simp only [reduceHiAux]
    split
    · exact ih _ (by omega)
    · omega

theorem reduceHiAux_congr (fuel : ℕ) : ∀ d : ℤ, (reduceHiAux fuel d - d) % 360 = 0 := by
  induction fuel with
  | zero => intro d; simp [reduceHiAux]
  | succ n ih =>
    intro d
    simp only [reduceHiAux]
    split
    · have := ih (d - 360); omega
    · omega

theorem reduceHi_le (d : ℤ) : reduceHi d ≤ 180 :=
  reduceHiAux_le _ _ (by omega)

theorem reduceHi_congr (d : ℤ) : (reduceHi d - d) % 360 = 0 :=
  reduceHiAux_congr _ _

theorem reduceLoAux_ge (fuel : ℕ) : ∀ d : ℤ, -180 - 360 * fuel ≤ d →
    -180 ≤ reduceLoAux fuel d := by
  induction fuel with
  | zero => intro d h; simpa [reduceLoAux] using (by omega : -180 ≤ d)
  | succ n ih =>
    intro d h
    simp only [reduceLoAux]
    split
    · exact ih _ (by omega)
    · omega

theorem reduceLoAux_le (fuel : ℕ) : ∀ d : ℤ, d ≤ 180 → reduceLoAux fuel d ≤ 180 := by
  induction fuel with
  | zero => intro d h; simpa [reduceLoAux] using h
  | succ n ih =>
    intro d h
    simp only [reduceLoAux]
    split
    · exact ih _ (by omega)
    · omega

theorem reduceLoAux_congr (fuel : ℕ) : ∀ d : ℤ, (reduceLoAux fuel d - d) % 360 = 0 := by
  induction fuel with
  | zero => intro d; simp [reduceLoAux]
  | succ n ih =>
    intro d
    simp only [reduceLoAux]
    split
    · have := ih (d + 360); omega
    · omega

theorem reduceLo_ge (d : ℤ) : -180 ≤ reduceLo d :=
  reduceLoAux_ge _ _ (by omega)

theorem reduceLo_le {d : ℤ} (h : d ≤ 180) : reduceLo d ≤ 180 :=
  reduceLoAux_le _ _ h

theorem reduceLo_congr (d : ℤ) : (reduceLo d - d) % 360 = 0 :=
  reduceLoAux_congr _ _

/- ---------------------------------------------------------------------- -/
/- Frame lemmas. -/

theorem settledAtPosition_stop (p : ℤ) (s : MotorState) :
    settledAtPosition p (stop s) = settledAtPosition p s := rfl

theorem settledAtPosition_goToPosition (p q : ℤ) (s : MotorState) :
    settledAtPosition p (goToPosition q s) = settledAtPosition p s := rfl

theorem rawSetSpeed_rawSpeed (sp : ℤ) (s : MotorState) :
    (rawSetSpeed sp s).rawSpeed = toUInt16 sp := by
  unfold rawSetSpeed stop
  split
  · rfl
  · split <;> rfl

theorem rawSetSpeed_frame (sp : ℤ) (s : MotorState) :
    (rawSetSpeed sp s).engineKp = s.engineKp ∧ (rawSetSpeed sp s).engineKi = s.engineKi ∧
    (rawSetSpeed sp s).engineKd = s.engineKd ∧ (rawSetSpeed sp s).pidKp = s.pidKp ∧
    (rawSetSpeed sp s).pidKi = s.pidKi ∧ (rawSetSpeed sp s).pidKd = s.pidKd ∧
    (rawSetSpeed sp s).pidMode = s.pidMode ∧ (rawSetSpeed sp s).encoderPos = s.encoderPos := by
  unfold rawSetSpeed stop
  split
  · exact ⟨rfl, rfl, rfl, rfl, rfl, rfl, rfl, rfl⟩
  · split <;> exact ⟨rfl, rfl, rfl, rfl, rfl, rfl, rfl, rfl⟩

theorem adjustTunings_pidMode (s : MotorState) :
    (adjustTunings s).pidMode = s.pidMode := by
  unfold adjustTunings
  split <;> rfl

theorem update_pidMode (env : Env) (s : MotorState) :
    (update env s).pidMode = s.pidMode := by
  unfold update
  split
  · unfold driveOutput
    rw [(rawSetSpeed_frame _ _).2.2.2.2.2.2.1]
    show (adjustTunings (readInput s)).pidMode = s.pidMode
    rw [adjustTunings_pidMode]
    rfl
  · rfl

/- ---------------------------------------------------------------------- -/
/- Claim C1. -/

/-- C1 counterexample: at encoder position -180 with internal multiplier 2,
getAngle() returns 65446 (the uint16_t wrap of -90), which does not lie in
the range 0 to 359, refuting the claim that the result is always normalized
into that range. -/
theorem getAngle_not_normalized_cex :
    getAngle negAngleState = 65446 ∧
    ¬ (0 ≤ getAngle negAngleState ∧ getAngle negAngleState < 360) := by
  decide

/-- C1 amended: getAngle() computes the C truncated quotient and remainder
and returns them through the uint16_t return type.  When the truncated
quotient position / angleMultiplier is nonnegative the result is that
quotient reduced modulo 360 and lies in the range 0 to 359; when the
truncated remainder is negative the result is the remainder plus 65536 and
lies outside that range. -/
theorem getAngle_truncated (s : MotorState) (h : s.angleMultiplier ≠ 0) :
    (0 ≤ Int.tdiv s.encoderPos s.angleMultiplier →
      getAngle s = Int.tdiv s.encoderPos s.angleMultiplier % 360 ∧
      0 ≤ getAngle s ∧ getAngle s < 360) ∧
    (Int.tmod (Int.tdiv s.encoderPos s.angleMultiplier) 360 < 0 →
      getAngle s = Int.tmod (Int.tdiv s.encoderPos s.angleMultiplier) 360 + 65536 ∧
      ¬ getAngle s < 360) := by
  have hub := tmod360_ub (Int.tdiv s.encoderPos s.angleMultiplier)
  have hlb := tmod360_lb (Int.tdiv s.encoderPos s.angleMultiplier)
  unfold getAngle toUInt16 getPosition
  constructor
  · intro hq
    rw [Int.tmod_eq_emod hq (by norm_num)]
    omega
  · intro hneg
    omega

/-- C1 witness: a fresh controller moved to encoder position 725 reports
angle 5. -/
theorem getAngle_truncated_witness :
    getAngle { initialState with encoderPos := 725 } = 5 := by
  have h := (getAngle_truncated { initialState with encoderPos := 725 } (by decide)).1 (by decide)
  rw [h.1]
  decide

/- ---------------------------------------------------------------------- -/
/- Claim C2. -/

/-- C2 counterexample: on a fresh controller, setAngle(-60) followed by
getAngle() returns 65476, not ((-60 mod 360) + 360) mod 360 = 300. -/
theorem setAngle_getAngle_cex :
    getAngle (setAngle (-60) initialState) = 65476 ∧
    ((-60 : ℤ) % 360 + 360) % 360 = 300 ∧ (65476 : ℤ) ≠ 300 := by
  decide

/-- C2 amended: setAngle(A) followed by getAngle() with the multiplier
unchanged returns the uint16_t wrap of the C truncated remainder A % 360;
for nonnegative A this equals ((A mod 360) + 360) mod 360, but for negative
A with a nonzero remainder it is that value plus 65176 more, outside the
range 0 to 359. -/
theorem setAngle_getAngle_roundtrip (A : ℤ) (s : MotorState)
    (h : s.angleMultiplier ≠ 0) :
    getAngle (setAngle A s) = toUInt16 (Int.tmod A 360) ∧
    (0 ≤ A → getAngle (setAngle A s) = (A % 360 + 360) % 360) := by
  have hdiv : Int.tdiv (Int.tmod A 360 * s.angleMultiplier) s.angleMultiplier
      = Int.tmod A 360 := Int.mul_tdiv_cancel _ h
  have hsmall : Int.tmod (Int.tmod A 360) 360 = Int.tmod A 360 :=
    tmod360_small (tmod360_lb A) (tmod360_ub A)
  have key : getAngle (setAngle A s) = toUInt16 (Int.tmod A 360) := by
    show toUInt16 (Int.tmod
      (Int.tdiv (Int.tmod A 360 * s.angleMultiplier) s.angleMultiplier) 360)
      = toUInt16 (Int.tmod A 360)
    rw [hdiv, hsmall]
  refine ⟨key, fun hA => ?_⟩
  have h0 : Int.tmod A 360 = A % 360 := Int.tmod_eq_emod hA (by norm_num)
  rw [key, h0]
  unfold toUInt16
  omega

/-- C2 witness: on a fresh controller, setAngle(725) followed by getAngle()
returns 5, which is ((725 mod 360) + 360) mod 360. -/
theorem setAngle_getAngle_roundtrip_witness :
    getAngle (setAngle 725 initialState) = 5 := by
  have h := (setAngle_getAngle_roundtrip 725 initialState (by decide)).2 (by decide)
  rw [h]
  decide

/- ---------------------------------------------------------------------- -/
/- Claim C4. -/

/-- C4: the delta computed by _getDestPositionFromAngle always lies in the
range -180 to 180, the returned target is position + delta * angleMultiplier,
the delta is congruent modulo 360 to the difference between the requested
angle remainder and the current angle remainder (the shortest angular path),
and in the concrete scenario with output multiplier 1 (internal multiplier 2)
and position 0, angle 90 targets tick 180 and angle -90 targets tick -180. -/
theorem getDestPositionFromAngle_spec (angle : ℤ) (s : MotorState)
    (h : s.angleMultiplier ≠ 0) :
    (-180 ≤ destDelta angle s ∧ destDelta angle s ≤ 180) ∧
    _getDestPositionFromAngle angle s =
      getPosition s + destDelta angle s * s.angleMultiplier ∧
    (destDelta angle s -
      (Int.tmod angle 360 - Int.tmod (Int.tdiv s.encoderPos s.angleMultiplier) 360)) % 360
      = 0 ∧
    _getDestPositionFromAngle 90 angleScenarioState = 180 ∧
    _getDestPositionFromAngle (-90) angleScenarioState = -180 := by
  refine ⟨⟨reduceLo_ge _, reduceLo_le (reduceHi_le _)⟩, rfl, ?_, by decide, by decide⟩
  have key : toInt16 (Int.tmod angle 360 - getAngle s)
      = Int.tmod angle 360 - Int.tmod (Int.tdiv s.encoderPos s.angleMultiplier) 360 :=
    toInt16_angle_sub (tmod360_lb _) (tmod360_ub _) (tmod360_lb _) (tmod360_ub _)
  have h1 := reduceHi_congr (toInt16 (Int.tmod angle 360 - getAngle s))
  have h2 := reduceLo_congr (reduceHi (toInt16 (Int.tmod angle 360 - getAngle s)))
  unfold destDelta
  omega

/-- C4 witness: with output multiplier 1 and position 0, goToAngle(90)
computes target tick 180. -/
theorem getDestPositionFromAngle_spec_witness :
    _getDestPositionFromAngle 90 angleScenarioState = 180 :=
  (getDestPositionFromAngle_spec 90 angleScenarioState (by decide)).2.2.2.1

/- ---------------------------------------------------------------------- -/
/- Claim C5. -/

/-- C5: settledAtPosition(p) is true exactly when the distance to p is below
epsilon and the PID output magnitude is below the settled threshold 30; at
distance exactly epsilon it is false, and at distance epsilon - 1 with zero
output it is true. -/
theorem settledAtPosition_spec (p : ℤ) (s : MotorState) :
    (settledAtPosition p s = true ↔
      |s.encoderPos - p| < s.epsilon ∧ |s.pidOutput| < 30) ∧
    (|s.encoderPos - p| = s.epsilon → settledAtPosition p s = false) ∧
    (1 ≤ s.epsilon → |s.encoderPos - p| = s.epsilon - 1 → s.pidOutput = 0 →
      settledAtPosition p s = true) := by
  unfold settledAtPosition getPosition
  refine ⟨by simp, ?_, ?_⟩
  · intro hEq
    rw [hEq]
    simp
  · intro h1 h2 h3
    rw [h2, h3]
    simp only [Bool.and_eq_true, decide_eq_true_eq]
    exact ⟨by omega, by norm_num⟩

/-- C5 witness: with the default epsilon 5 and zero PID output, a controller
4 ticks from the target reports settled and one 5 ticks away does not. -/
theorem settledAtPosition_spec_witness :
    settledAtPosition 0 { initialState with encoderPos := 4 } = true ∧
    settledAtPosition 0 { initialState with encoderPos := 5 } = false := by
  constructor
  · exact (settledAtPosition_spec 0 _).2.2 (by decide) (by decide) rfl
  · exact (settledAtPosition_spec 0 _).2.1 (by decide)

/- ---------------------------------------------------------------------- -/
/- Claim C7. -/

/-- C7: with the PID mode disabled (the state after construction), update()
returns the state unchanged: no field changes, no PID computation, no drive
command. -/
theorem update_disabled_noop (env : Env) (s : MotorState) (h : s.pidMode = 0) :
    update env s = s := by
  unfold update
  rw [if_neg (by omega)]

/-- C7 witness: update() on the freshly constructed state is the identity. -/
theorem update_disabled_noop_witness : update envZero initialState = initialState :=
  update_disabled_noop envZero initialState rfl

/- ---------------------------------------------------------------------- -/
/- Claim C9. -/

/-- C9: whatever speed was commanded before, rawSetSpeed(0) drives the
enable, direction and pwm pins all low. -/
theorem rawSetSpeed_zero_stops (prior : ℤ) (s : MotorState) :
    pinsStopped (rawSetSpeed 0 (rawSetSpeed prior s)) :=
  ⟨rfl, rfl, rfl⟩

/- ---------------------------------------------------------------------- -/
/- Claim C10. -/

/-- C10: stop() leaves the stored raw speed alone: after rawSetSpeed(s) with
a nonzero int16_t value s followed by stop(), rawGetSpeed() still returns s
while all drive pins are inactive; and in general stop() never changes the
stored raw speed nor the value rawGetSpeed() reports, which covers the stop
issued at the end of goToPositionWait and goToPositionWaitTimeout. -/
theorem stop_preserves_rawSpeed (s : MotorState) (sp : ℤ)
    (hlo : -32768 ≤ sp) (hhi : sp < 32768) (hnz : sp ≠ 0) :
    rawGetSpeed (stop (rawSetSpeed sp s)) = sp ∧
    pinsStopped (stop (rawSetSpeed sp s)) ∧
    (∀ t : MotorState, (stop t).rawSpeed = t.rawSpeed ∧
      rawGetSpeed (stop t) = rawGetSpeed t) := by
  refine ⟨?_, ⟨rfl, rfl, rfl⟩, fun t => ⟨rfl, rfl⟩⟩
  show toInt16 (stop (rawSetSpeed sp s)).rawSpeed = sp
  rw [show (stop (rawSetSpeed sp s)).rawSpeed = (rawSetSpeed sp s).rawSpeed from rfl,
    rawSetSpeed_rawSpeed]
  unfold toInt16 toUInt16
  omega

/-- C10 witness: rawSetSpeed(100) then stop() leaves rawGetSpeed() at 100. -/
theorem stop_preserves_rawSpeed_witness :
    rawGetSpeed (stop (rawSetSpeed 100 initialState)) = 100 :=
  (stop_preserves_rawSpeed initialState 100 (by decide) (by decide) (by decide)).1

/- ---------------------------------------------------------------------- -/
/- Further frame lemmas, for the update and wait theorems. -/

theorem driveOutput_frame (t : MotorState) :
    (driveOutput t).engineKp = t.engineKp ∧ (driveOutput t).engineKi = t.engineKi ∧
    (driveOutput t).engineKd = t.engineKd ∧ (driveOutput t).pidKp = t.pidKp ∧
    (driveOutput t).pidKi = t.pidKi ∧ (driveOutput t).pidKd = t.pidKd :=
  ⟨(rawSetSpeed_frame _ _).1, (rawSetSpeed_frame _ _).2.1, (rawSetSpeed_frame _ _).2.2.1,
   (rawSetSpeed_frame _ _).2.2.2.1, (rawSetSpeed_frame _ _).2.2.2.2.1,
   (rawSetSpeed_frame _ _).2.2.2.2.2.1⟩

theorem adjustTunings_base (t : MotorState) :
    (adjustTunings t).pidKp = t.pidKp ∧ (adjustTunings t).pidKi = t.pidKi ∧
    (adjustTunings t).pidKd = t.pidKd := by
  unfold adjustTunings
  split <;> exact ⟨rfl, rfl, rfl⟩

/- ---------------------------------------------------------------------- -/
/- Claim C6. -/

/-- C6: during update() in position mode, when the measured input is within
5 of the setpoint the PID engine receives the base gains each divided by 8,
otherwise the full base gains; the stored base gains are unchanged either
way. -/
theorem update_conservative_scaling (env : Env) (s : MotorState)
    (hmode : s.pidMode = 1) :
    (|(s.encoderPos : ℚ) - s.pidSetpoint| < 5 →
      (update env s).engineKp = s.pidKp / 8 ∧
      (update env s).engineKi = s.pidKi / 8 ∧
      (update env s).engineKd = s.pidKd / 8) ∧
    (¬ |(s.encoderPos : ℚ) - s.pidSetpoint| < 5 →
      (update env s).engineKp = s.pidKp ∧
      (update env s).engineKi = s.pidKi ∧
      (update env s).engineKd = s.pidKd) ∧
    ((update env s).pidKp = s.pidKp ∧ (update env s).pidKi = s.pidKi ∧
      (update env s).pidKd = s.pidKd) := by
  have hu : update env s = driveOutput (pidCompute env (adjustTunings (readInput s))) := by
    unfold update
    rw [if_pos hmode]
  have hek : (update env s).engineKp = (adjustTunings (readInput s)).engineKp := by
    rw [hu]; exact (driveOutput_frame _).1
  have hei : (update env s).engineKi = (adjustTunings (readInput s)).engineKi := by
    rw [hu]; exact (driveOutput_frame _).2.1
  have hed : (update env s).engineKd = (adjustTunings (readInput s)).engineKd := by
    rw [hu]; exact (driveOutput_frame _).2.2.1
  refine ⟨fun hc => ?_, fun hc => ?_,
    ⟨by rw [hu]; exact ((driveOutput_frame _).2.2.2.1).trans (adjustTunings_base _).1,
     by rw [hu]; exact ((driveOutput_frame _).2.2.2.2.1).trans (adjustTunings_base _).2.1,
     by rw [hu]; exact ((driveOutput_frame _).2.2.2.2.2).trans (adjustTunings_base _).2.2⟩⟩
  · have hc' : |(readInput s).pidInput - (readInput s).pidSetpoint| < 5 := hc
    have ha : adjustTunings (readInput s) = pidUpdateTuningsConservative 8 (readInput s) := by
      unfold adjustTunings
      rw [if_pos hc']
    exact ⟨by rw [hek, ha]; rfl, by rw [hei, ha]; rfl, by rw [hed, ha]; rfl⟩
  · have hc' : ¬ |(readInput s).pidInput - (readInput s).pidSetpoint| < 5 := hc
    have ha : adjustTunings (readInput s) = pidUpdateTunings (readInput s) := by
      unfold adjustTunings
      rw [if_neg hc']
    exact ⟨by rw [hek, ha]; rfl, by rw [hei, ha]; rfl, by rw [hed, ha]; rfl⟩

/-- C6 witness: a fresh controller sent to position 0 (so the measured input
0 is within 5 of the setpoint) hands the engine the default gains divided
by 8 while keeping the stored base gains. -/
theorem update_conservative_scaling_witness :
    ((update envZero (goToPosition 0 initialState)).engineKp = defaultKp / 8 ∧
      (update envZero (goToPosition 0 initialState)).engineKi = defaultKi / 8 ∧
      (update envZero (goToPosition 0 initialState)).engineKd = defaultKd / 8) ∧
    (update envZero (goToPosition 0 initialState)).pidKp = defaultKp :=
  ⟨(update_conservative_scaling envZero (goToPosition 0 initialState) rfl).1
      (by show |((0 : ℤ) : ℚ) - ((0 : ℤ) : ℚ)| < 5; norm_num),
   ((update_conservative_scaling envZero (goToPosition 0 initialState) rfl).2.2).1⟩

/- ---------------------------------------------------------------------- -/
/- Lemmas about the blocking wait loops. -/

theorem gtpwLoop_post (env : Env) (pos : ℤ) :
    ∀ (fuel : ℕ) (s s' : MotorState),
      goToPositionWaitLoop env pos fuel s = some s' →
      settledAtPosition pos s' = true ∧ pinsStopped s' ∧ s'.pidMode = s.pidMode := by
  intro fuel
  induction fuel with
  | zero => intro s s' h; exact absurd h (by simp [goToPositionWaitLoop])
  | succ n ih =>
    intro s s' h
    simp only [goToPositionWaitLoop] at h
    by_cases hset : settledAtPosition pos s = true
    · rw [if_pos hset] at h
      obtain rfl : stop s = s' := Option.some.inj h
      exact ⟨hset, ⟨rfl, rfl, rfl⟩, rfl⟩
    · rw [if_neg hset] at h
      have hrec := ih (update env s) s' h
      exact ⟨hrec.1, hrec.2.1, hrec.2.2.trans (update_pidMode env s)⟩

theorem wtLoop_pins (env : Env) (pos : ℤ) (deadline : ℕ) :
    ∀ (fuel : ℕ) (s : MotorState) (b : Bool) (s' : MotorState),
      goToPositionWaitTimeoutLoop env pos deadline fuel s = some (b, s') →
      pinsStopped s' := by
  intro fuel
  induction fuel with
  | zero => intro s b s' h; exact absurd h (by simp [goToPositionWaitTimeoutLoop])
  | succ n ih =>
    intro s b s' h
    simp only [goToPositionWaitTimeoutLoop] at h
    by_cases hset : settledAtPosition pos s = true
    · rw [if_pos hset] at h
      simp only [finishTimeout, Option.some.injEq, Prod.mk.injEq] at h
      obtain ⟨hb, hs⟩ := h
      subst hs
      exact ⟨rfl, rfl, rfl⟩
    · rw [if_neg hset] at h
      by_cases ht : millisValue env s < deadline
      · rw [if_pos ht] at h
        exact ih _ _ _ h
      · rw [if_neg ht] at h
        simp only [finishTimeout, Option.some.injEq, Prod.mk.injEq] at h
        obtain ⟨hb, hs⟩ := h
        subst hs
        exact ⟨rfl, rfl, rfl⟩

theorem wtLoop_true_settled (env : Env) (pos : ℤ) (deadline : ℕ)
    (hmono : ∀ i j : ℕ, i ≤ j → env.millisAt i ≤ env.millisAt j)
    (hbound : ∀ i : ℕ, env.millisAt i < 4294967296) :
    ∀ (fuel : ℕ) (s s' : MotorState),
      goToPositionWaitTimeoutLoop env pos deadline fuel s = some (true, s') →
      settledAtPosition pos s' = true := by
  intro fuel
  induction fuel with
  | zero => intro s s' h; exact absurd h (by simp [goToPositionWaitTimeoutLoop])
  | succ n ih =>
    intro s s' h
    simp only [goToPositionWaitTimeoutLoop] at h
    by_cases hset : settledAtPosition pos s = true
    · rw [if_pos hset] at h
      simp only [finishTimeout, Option.some.injEq, Prod.mk.injEq] at h
      obtain ⟨hb, hs⟩ := h
      subst hs
      exact hset
    · rw [if_neg hset] at h
      by_cases ht : millisValue env s < deadline
      · rw [if_pos ht] at h
        exact ih _ _ h
      · rw [if_neg ht] at h
        exfalso
        simp only [finishTimeout, Option.some.injEq, Prod.mk.injEq] at h
        obtain ⟨hb, hs⟩ := h
        have hb' : millisValue env (stop (tickMillis s)) < deadline := of_decide_eq_true hb
        have e1 : millisValue env (stop (tickMillis s)) = env.millisAt (s.nMillis + 1) := by
          show env.millisAt (s.nMillis + 1) % 4294967296 = env.millisAt (s.nMillis + 1)
          exact Nat.mod_eq_of_lt (hbound _)
        have e2 : millisValue env s = env.millisAt s.nMillis := by
          show env.millisAt s.nMillis % 4294967296 = env.millisAt s.nMillis
          exact Nat.mod_eq_of_lt (hbound _)
        have hm := hmono s.nMillis (s.nMillis + 1) (by omega)
        omega

theorem wtLoop_timeout_exit (env : Env) (pos : ℤ) (deadline : ℕ)
    (hmono : ∀ i j : ℕ, i ≤ j → env.millisAt i ≤ env.millisAt j)
    (hbound : ∀ i : ℕ, env.millisAt i < 4294967296)
    (m : ℕ) (s : MotorState)
    (hns : settledAtPosition pos s = false)
    (hdead : deadline ≤ env.millisAt s.nMillis) :
    goToPositionWaitTimeoutLoop env pos deadline (m + 1) s
      = some (false, tickMillis (stop (tickMillis s))) := by
  have e2 : millisValue env s = env.millisAt s.nMillis := by
    show env.millisAt s.nMillis % 4294967296 = env.millisAt s.nMillis
    exact Nat.mod_eq_of_lt (hbound _)
  have e1 : millisValue env (stop (tickMillis s)) = env.millisAt (s.nMillis + 1) := by
    show env.millisAt (s.nMillis + 1) % 4294967296 = env.millisAt (s.nMillis + 1)
    exact Nat.mod_eq_of_lt (hbound _)
  have hm := hmono s.nMillis (s.nMillis + 1) (by omega)
  simp only [goToPositionWaitTimeoutLoop]
  rw [if_neg (by simp [hns]), if_neg (by omega)]
  simp only [finishTimeout, Option.some.injEq, Prod.mk.injEq]
  exact ⟨decide_eq_false (by omega), trivial⟩

/- ---------------------------------------------------------------------- -/
/- Claim C3. -/

/-- C3 counterexample: take a controller already settled at target 0 and a
clock that reads 100 at entry and 105 afterwards.  With timeout 5 the
deadline is 105, so the motor is settled at the target strictly before the
deadline for the whole call, yet goToPositionWaitTimeout returns false,
because the final clock reading taken after the stop has already reached the
deadline.  This refutes the claim that true is returned exactly when the
motor settled before the deadline. -/
theorem goToPositionWaitTimeout_cex :
    settledAtPosition 0 (goToPosition 0 initialState) = true ∧
    envLate.millisAt 0 = 100 ∧ (5 + 100) % 4294967296 = 105 ∧
    (goToPositionWaitTimeout envLate 0 5 1 initialState).map Prod.fst = some false := by
  exact ⟨by decide, rfl, by decide, by decide⟩

/-- C3 amended: whenever goToPositionWaitTimeout returns, the drive pins are
stopped, and the result is true only if the settle condition holds in the
final state (with a nondecreasing uint32_t clock); settling before the
deadline does not guarantee true, since the returned boolean is decided by a
fresh clock reading taken after the stop.  With timeout 0 and the target not
already settled, the call returns false after one round and leaves the drive
stopped. -/
theorem goToPositionWaitTimeout_spec (env : Env) (position : ℤ)
    (timeoutMS fuel : ℕ) (s : MotorState) (hclock : WellBehavedClock env) :
    (∀ (b : Bool) (s' : MotorState),
      goToPositionWaitTimeout env position timeoutMS fuel s = some (b, s') →
      pinsStopped s' ∧ (b = true → settledAtPosition position s' = true)) ∧
    (1 ≤ fuel → timeoutMS = 0 → settledAtPosition position s = false →
      goToPositionWaitTimeout env position timeoutMS fuel s =
        some (false, tickMillis (stop (tickMillis (tickMillis (goToPosition position s))))) ∧
      pinsStopped (tickMillis (stop (tickMillis (tickMillis (goToPosition position s)))))) := by
  obtain ⟨hmono, hbound⟩ := hclock
  constructor
  · intro b s' h
    refine ⟨wtLoop_pins env position _ fuel _ b s' h, fun hb => ?_⟩
    subst hb
    exact wtLoop_true_settled env position _ hmono hbound fuel _ s' h
  · intro hfuel h0 hns
    obtain ⟨m, rfl⟩ : ∃ m, fuel = m + 1 := ⟨fuel - 1, by omega⟩
    subst h0
    refine ⟨?_, ⟨rfl, rfl, rfl⟩⟩
    have hdead : (0 + millisValue env (goToPosition position s)) % 4294967296
        ≤ env.millisAt ((tickMillis (goToPosition position s)).nMillis) := by
      have h1 := hbound s.nMillis
      have hm := hmono s.nMillis (s.nMillis + 1) (by omega)
      show (0 + env.millisAt s.nMillis % 4294967296) % 4294967296
        ≤ env.millisAt (s.nMillis + 1)
      omega
    exact wtLoop_timeout_exit env position _ hmono hbound m
      (tickMillis (goToPosition position s)) hns hdead

/-- C3 witness: with a constant-zero clock and timeout 0, a controller 100
ticks from the target gets false back from goToPositionWaitTimeout. -/
theorem goToPositionWaitTimeout_spec_witness :
    (goToPositionWaitTimeout envZero 0 0 1 farState).map Prod.fst = some false := by
  have h := (goToPositionWaitTimeout_spec envZero 0 0 1 farState
    ⟨fun i j _ => le_refl 0, fun i => (by norm_num : (0 : ℕ) < 4294967296)⟩).2
    (by omega) rfl (by decide)
  rw [h.1]
  rfl

/- ---------------------------------------------------------------------- -/
/- Claim C8. -/

/-- C8: whenever goToPositionWait(target) returns, the settle condition for
the target holds in the final state, the drive pins are stopped, and the PID
mode is still position control, not reset to disabled. -/
theorem goToPositionWait_post (env : Env) (position : ℤ) (fuel : ℕ)
    (s s' : MotorState)
    (h : goToPositionWait env position fuel s = some s') :
    settledAtPosition position s' = true ∧ pinsStopped s' ∧ s'.pidMode = 1 := by
  have hrec := gtpwLoop_post env position fuel (goToPosition position s) s' h
  exact ⟨hrec.1, hrec.2.1, hrec.2.2⟩

/-- C8 witness: goToPositionWait(0) on a fresh controller (already settled at
0) returns the state that is settled, stopped, and still in position mode. -/
theorem goToPositionWait_post_witness :
    settledAtPosition 0 waitFinState = true ∧ pinsStopped waitFinState ∧
      waitFinState.pidMode = 1 :=
  goToPositionWait_post envZero 0 1 initialState waitFinState (by decide)

end BricktronicsMotor
